import Mathlib

/-
Shallow embedding of the reflective property-view binder in
examples/leabra25ra/pygiv.py (class ClassView and its free-function
callbacks) together with the earlier revision in pygi.py.

Modelling conventions:
  * Python dictionaries (with string keys) become association lists with
    dict semantics: lookup finds the first matching key, insertion
    overwrites in place when the key exists and appends otherwise.
  * Python runtime values relevant to the editor become the inductive
    type PyVal.  The isinstance tests of the source become predicates on
    PyVal; in particular a Python bool is an instance of int, which the
    predicates reproduce.
  * Python str.split with an explicit one-character separator becomes
    pysplit, and str.strip with a one-character argument becomes
    pyStripChar; both keep empty pieces exactly as Python does.
  * GUI toolkit objects are opaque.  A widget is modelled by the data the
    editor pushes into it: its composite name, its kind, its displayed
    state (checked flag, numeric value, text), its inactive flag and the
    callback connected to its signal.  The frame is modelled by its list
    of children plus a trace of update events (UpdateStart,
    SetFullReRender, DeleteChildren, AddNewChild, UpdateEnd).
  * Statements in the source that can raise a Python exception inside the
    modelled code are embedded in Except String: in FieldTags the
    expression self.Tags[nm].split(" ") raises AttributeError when the
    stored tag entry is not a string, and in the callbacks nms[1] raises
    IndexError and classviews[nms[0]] raises KeyError.  An exception
    propagates out of Config, skipping the trailing UpdateEnd call, since
    the source has no try/finally around the field loop.
-/

/-- Runtime values a field of the edited owner object can hold, as far as
the editor distinguishes them: Python bool, int, float, an engine object
(go.GoClass, carrying the result of its Label method when it has one),
a pandas DataFrame, a string, or any other object identified here only by
its str rendering. -/
inductive PyVal where
  | bool (b : Bool)
  | int (n : Int)
  | float (q : Rat)
  | goObj (label : Option String)
  | dataFrame
  | str (s : String)
  | other (repr : String)
deriving DecidableEq

/-- Python isinstance(val, bool). -/
def isinstanceBool : PyVal → Bool
  | .bool _ => true
  | _ => false

/-- Python isinstance(val, int).  A Python bool is a subclass of int, so
bool values satisfy this test as well. -/
def isinstanceInt : PyVal → Bool
  | .bool _ => true
  | .int _ => true
  | _ => false

/-- Python isinstance(val, float). -/
def isinstanceFloat : PyVal → Bool
  | .float _ => true
  | _ => false

/-- Python isinstance(val, go.GoClass). -/
def isinstanceGoClass : PyVal → Bool
  | .goObj _ => true
  | _ => false

/-- Python isinstance(val, pd.DataFrame). -/
def isinstanceDataFrame : PyVal → Bool
  | .dataFrame => true
  | _ => false

/-- Payload of a PyVal.bool; only used under an isinstanceBool guard. -/
def PyVal.getBool : PyVal → Bool
  | .bool b => b
  | _ => false

/-- Python str(val).  Exact float rendering is immaterial here: in
pygiv.py a float is caught by the numeric branch before any str call. -/
def pyStr : PyVal → String
  | .bool b => if b then "True" else "False"
  | .int n => toString n
  | .float q => toString q
  | .goObj _ => "<go object>"
  | .dataFrame => "<DataFrame>"
  | .str s => s
  | .other r => r

/-- Dictionary lookup: first entry with the given key. -/
def dictFind? {α : Type} (d : List (String × α)) (k : String) : Option α :=
  match d with
  | [] => none
  | p :: rest => if p.1 = k then some p.2 else dictFind? rest k

/-- Dictionary insertion: overwrite in place when the key is present,
append otherwise, exactly as a Python dict assignment behaves. -/
def dictInsert {α : Type} (d : List (String × α)) (k : String) (v : α) :
    List (String × α) :=
  match d with
  | [] => [(k, v)]
  | p :: rest =>
    if p.1 = k then (k, v) :: rest else p :: dictInsert rest k v

/-- Membership test for a key, as the Python in operator on a dict. -/
def dictMem {α : Type} (d : List (String × α)) (k : String) : Bool :=
  (dictFind? d k).isSome

/-- Core of the Python single-character split: splits a character list at
every occurrence of the separator, keeping empty pieces.  The result is
never empty. -/
def splitChar (c : Char) : List Char → List (List Char)
  | [] => [[]]
  | x :: xs =>
    match splitChar c xs with
    | [] => [[]]
    | y :: ys => if x = c then [] :: y :: ys else (x :: y) :: ys

/-- Python s.split(sep) for a one-character separator sep. -/
def pysplit (c : Char) (s : String) : List String :=
  (splitChar c s.toList).map String.mk

/-- Python s.strip(ch) for a one-character argument: removes every copy of
the character from both ends. -/
def pyStripChar (c : Char) (s : String) : String :=
  String.mk (((s.toList.dropWhile (fun x => x = c)).reverse.dropWhile
      (fun x => x = c)).reverse)

/-- Loop body of ClassView.FieldTags over the space-separated tokens: a
token that splits on the colon into exactly two parts contributes an entry
(with the value stripped of double quotes); any other token is reported
(counted here) and skipped. -/
def parseTagsAux (acc : List (String × String) × Nat) :
    List String → List (String × String) × Nat
  | [] => acc
  | t :: ts =>
    match pysplit ':' t with
    | [n, v] => parseTagsAux (dictInsert acc.1 n (pyStripChar '"' v), acc.2) ts
    | _ => parseTagsAux (acc.1, acc.2 + 1) ts

/-- Parse one tag string as ClassView.FieldTags does: split on single
spaces, then process each token.  Returns the parsed dictionary and the
number of diagnostics printed for malformed tokens. -/
def parseTags (s : String) : List (String × String) × Nat :=
  parseTagsAux ([], 0) (pysplit ' ' s)

/-- ClassView.HasTagValue: true when the parsed tag dictionary maps the
given tag to the given value. -/
def HasTagValue (tags : List (String × String)) (tag value : String) : Bool :=
  match dictFind? tags tag with
  | none => false
  | some tv => tv = value

/-- Widget kinds the two editor revisions create.  The two action kinds
are distinguished by the editor they open: actionGo opens a nested
structured editor for an engine object, actionDF opens a table viewer for
a DataFrame. -/
inductive WidgetKind where
  | checkBox
  | actionGo
  | actionDF
  | spinBox
  | textField
deriving DecidableEq

/-- The free-function callback connected to a widget signal. -/
inductive Callback where
  | setIntValCB
  | editGoObjCB
  | editObjCB
  | setStrValCB
  | setBoolValCB
deriving DecidableEq

/-- A toolkit widget as the editor configures it. -/
structure Widget where
  name : String
  kind : WidgetKind
  checked : Bool
  value : PyVal
  text : String
  inactive : Bool
  conn : Callback
deriving DecidableEq

/-- A child of the frame: a label (with its child name and displayed
text) or a bound widget. -/
inductive Child where
  | label (nm text : String)
  | widget (w : Widget)
deriving DecidableEq

/-- Frame-level events emitted while Config runs. -/
inductive Ev where
  | updateStart
  | setFullReRender
  | deleteChildren
  | addChild (nm : String)
  | updateEnd
deriving DecidableEq

/-- State of one ClassView instance: its unique name, the caller-supplied
tag dictionary (values are arbitrary Python objects; the documented
contract wants strings), the owner object as its attribute dictionary, the
frame children and the widget registry self.Views. -/
structure ClassView where
  Name : String
  Tags : List (String × PyVal)
  Class : List (String × PyVal)
  Frame : List Child
  Views : List (String × Widget)
deriving DecidableEq

/-- ClassView.FieldTags for a given tag dictionary: no entry for the
field yields the empty dictionary with no diagnostics; a string entry is
parsed; a non-string entry raises AttributeError when the source calls
split on it. -/
def fieldTagsOf (tags : List (String × PyVal)) (nm : String) :
    Except String (List (String × String) × Nat) :=
  match dictFind? tags nm with
  | none => .ok ([], 0)
  | some (.str s) => .ok (parseTags s)
  | some _ => .error "AttributeError: object has no attribute split"

/-- ClassView.FieldTags. -/
def ClassView.FieldTags (cv : ClassView) (nm : String) :
    Except String (List (String × String) × Nat) :=
  fieldTagsOf cv.Tags nm

/-- Composite widget name built in ClassView.Config: the view name, a
colon, and the field name. -/
def compositeName (viewName nm : String) : String :=
  viewName ++ ":" ++ nm

/-- Per-field widget construction of ClassView.Config (pygiv.py), the
isinstance chain in source order: bool, go.GoClass, pd.DataFrame,
(int, float), fallback.  Each branch names the widget with the composite
name, initialises its displayed state from the value, connects the
matching callback and applies the inactive tag. -/
def fieldWidget (viewName : String) (ftags : List (String × String))
    (nm : String) (val : PyVal) : Widget :=
  let wnm := compositeName viewName nm
  let inact := HasTagValue ftags "inactive" "+"
  if isinstanceBool val then
    { name := wnm, kind := .checkBox, checked := val.getBool,
      value := .int 0, text := "", inactive := inact, conn := .setBoolValCB }
  else if isinstanceGoClass val then
    { name := wnm, kind := .actionGo, checked := false, value := .int 0,
      text := match val with | .goObj (some l) => l | _ => nm,
      inactive := inact, conn := .editGoObjCB }
  else if isinstanceDataFrame val then
    { name := wnm, kind := .actionDF, checked := false, value := .int 0,
      text := nm, inactive := inact, conn := .editObjCB }
  else if isinstanceInt val || isinstanceFloat val then
    { name := wnm, kind := .spinBox, checked := false, value := val,
      text := "", inactive := inact, conn := .setIntValCB }
  else
    { name := wnm, kind := .textField, checked := false, value := .int 0,
      text := pyStr val, inactive := inact, conn := .setStrValCB }

/-- Result of the Config field loop: frame children, widget registry,
event trace, and the exception that aborted the loop, if any. -/
structure ConfigOut where
  frame : List Child
  views : List (String × Widget)
  trace : List Ev
  err : Option String
deriving DecidableEq

/-- Field loop of ClassView.Config: for each field, parse its tags (an
exception aborts the loop), skip it when view is tagged with a dash,
otherwise add a label child and the constructed widget child and record
the widget in the registry. -/
def configLoop (viewName : String) (tags : List (String × PyVal))
    (frame : List Child) (views : List (String × Widget)) (trace : List Ev) :
    List (String × PyVal) → ConfigOut
  | [] => ⟨frame, views, trace, none⟩
  | (nm, val) :: rest =>
    match fieldTagsOf tags nm with
    | .error e => ⟨frame, views, trace, some e⟩
    | .ok (ftags, _) =>
      if HasTagValue ftags "view" "-" then
        configLoop viewName tags frame views trace rest
      else
        let w := fieldWidget viewName ftags nm val
        configLoop viewName tags
          (frame ++ [Child.label ("lbl_" ++ nm) nm, Child.widget w])
          (dictInsert views nm w)
          (trace ++ [Ev.addChild ("lbl_" ++ nm), Ev.addChild w.name])
          rest

/-- ClassView.Config (pygiv.py): after the frame property settings (pure
display properties, no child mutation, not traced), it calls UpdateStart,
SetFullReRender and DeleteChildren, resets self.Views, runs the field
loop, and calls UpdateEnd.  When the loop raises, the exception
propagates, the partially mutated state remains and UpdateEnd is never
reached.  Returns the updated view state, the frame event trace, and the
exception if one was raised. -/
def ClassView.Config (cv : ClassView) : ClassView × List Ev × Option String :=
  let out := configLoop cv.Name cv.Tags [] []
    [Ev.updateStart, Ev.setFullReRender, Ev.deleteChildren] cv.Class
  ({ cv with Frame := out.frame, Views := out.views },
   (match out.err with
    | some _ => out.trace
    | none => out.trace ++ [Ev.updateEnd]),
   out.err)

/-- Per-widget refresh of ClassView.Update: dispatch on the current value
with the same isinstance chain as construction; engine objects and
DataFrames are left untouched, the other kinds get the freshly converted
value pushed into their displayed state. -/
def updateWidget (val : PyVal) (vw : Widget) : Widget :=
  if isinstanceBool val then { vw with checked := val.getBool }
  else if isinstanceGoClass val then vw
  else if isinstanceDataFrame val then vw
  else if isinstanceInt val || isinstanceFloat val then { vw with value := val }
  else { vw with text := pyStr val }

/-- Loop of ClassView.Update over the owner fields: fields with a
registry entry get their widget refreshed in place; others are skipped. -/
def updateViews (flds : List (String × PyVal))
    (views : List (String × Widget)) : List (String × Widget) :=
  match flds with
  | [] => views
  | (nm, val) :: rest =>
    match dictFind? views nm with
    | none => updateViews rest views
    | some vw => updateViews rest (dictInsert views nm (updateWidget val vw))

/-- ClassView.Update (pygiv.py): refreshes the registered widgets from
the owner fields; it touches nothing else on the view state. -/
def ClassView.Update (cv : ClassView) : ClassView :=
  { cv with Views := updateViews cv.Class cv.Views }

/-- Python list indexing, raising IndexError past the end. -/
def pyIndex {α : Type} (l : List α) (i : Nat) : Except String α :=
  match l[i]? with
  | some x => .ok x
  | none => .error "IndexError: list index out of range"

/-- Python classviews[k]: KeyError when the view name is unknown. -/
def classviewsGet (cvs : List (String × ClassView)) (k : String) :
    Except String ClassView :=
  match dictFind? cvs k with
  | some cv => .ok cv
  | none => .error "KeyError"

/-- Python setattr(obj, nm, v) on the owner attribute dictionary. -/
def setattr (flds : List (String × PyVal)) (nm : String) (v : PyVal) :
    List (String × PyVal) :=
  dictInsert flds nm v

namespace gi

/-- Toolkit signal constant gi.TextFieldDone.  The concrete value is
opaque toolkit data; the handlers only compare signals against it. -/
def TextFieldDone : Int := 6

/-- Toolkit signal constant gi.ButtonToggled; same remark as for
TextFieldDone. -/
def ButtonToggled : Int := 4

end gi

/-- SetIntValCB (pygiv.py): splits the sender widget name on the colon,
looks the view up in the global classviews registry and assigns the
widget numeric value to the named owner field.  No signal filtering.
The recv and data arguments of the source are unused and dropped. -/
def SetIntValCB (cvs : List (String × ClassView)) (send : Widget)
    (sig : Int) : Except String (List (String × ClassView)) := do
  let nms := pysplit ':' send.name
  let k ← pyIndex nms 0
  let cv ← classviewsGet cvs k
  let fld ← pyIndex nms 1
  return dictInsert cvs k { cv with Class := setattr cv.Class fld send.value }

/-- SetStrValCB (pygiv.py): returns at once unless the signal is
gi.TextFieldDone; otherwise routes by the composite name and assigns the
widget text to the named owner field. -/
def SetStrValCB (cvs : List (String × ClassView)) (send : Widget)
    (sig : Int) : Except String (List (String × ClassView)) :=
  if sig ≠ gi.TextFieldDone then .ok cvs
  else do
    let nms := pysplit ':' send.name
    let k ← pyIndex nms 0
    let cv ← classviewsGet cvs k
    let fld ← pyIndex nms 1
    return dictInsert cvs k
      { cv with Class := setattr cv.Class fld (.str send.text) }

/-- SetBoolValCB (pygiv.py): returns at once unless the signal is
gi.ButtonToggled; otherwise routes by the composite name and assigns the
checked state of the sender (IsChecked() compared against 0) to the named
owner field. -/
def SetBoolValCB (cvs : List (String × ClassView)) (send : Widget)
    (sig : Int) : Except String (List (String × ClassView)) :=
  if sig ≠ gi.ButtonToggled then .ok cvs
  else do
    let nms := pysplit ':' send.name
    let k ← pyIndex nms 0
    let cv ← classviewsGet cvs k
    let fld ← pyIndex nms 1
    return dictInsert cvs k
      { cv with Class := setattr cv.Class fld (.bool send.checked) }

/-- Per-field widget construction of the earlier revision ClassView.Config
in pygi.py: a two-way isinstance chain, int (which a Python bool
satisfies) against everything else; no bool, engine-object or DataFrame
branch and no tag handling. -/
def fieldWidgetOld (viewName : String) (nm : String) (val : PyVal) : Widget :=
  let wnm := compositeName viewName nm
  if isinstanceInt val then
    { name := wnm, kind := .spinBox, checked := false, value := val,
      text := "", inactive := false, conn := .setIntValCB }
  else
    { name := wnm, kind := .textField, checked := false, value := .int 0,
      text := pyStr val, inactive := false, conn := .setStrValCB }

/-- Modelled from the spec: the widget-kind classification exactly as the
spec sentence lists it, first match wins: boolean, opaque engine handle,
tabular data, numeric (integer or floating-point), anything else.  Used
to compare the source classification against the spec wording. -/
def specWidgetKind (val : PyVal) : WidgetKind :=
  if isinstanceBool val then .checkBox
  else if isinstanceGoClass val then .actionGo
  else if isinstanceDataFrame val then .actionDF
  else if isinstanceInt val || isinstanceFloat val then .spinBox
  else .textField

/-- Modelled from the spec: the callback each widget kind is wired to. -/
def specConn : WidgetKind → Callback
  | .checkBox => .setBoolValCB
  | .actionGo => .editGoObjCB
  | .actionDF => .editObjCB
  | .spinBox => .setIntValCB
  | .textField => .setStrValCB

/-- Parsed tag dictionary of a field in the non-raising case; the empty
dictionary when FieldTags would raise. -/
def ftagsD (tags : List (String × PyVal)) (nm : String) :
    List (String × String) :=
  match fieldTagsOf tags nm with
  | .ok (d, _) => d
  | .error _ => []

/-- A field is hidden when its parsed tags map view to a dash. -/
def isHidden (tags : List (String × PyVal)) (nm : String) : Bool :=
  HasTagValue (ftagsD tags nm) "view" "-"

/-- The fields the Config loop renders: those not hidden by a view tag. -/
def visibleFields (tags : List (String × PyVal))
    (flds : List (String × PyVal)) : List (String × PyVal) :=
  flds.filter (fun f => !(isHidden tags f.1))

/-- All fields have tag entries FieldTags can process without raising. -/
def tagsOk (tags : List (String × PyVal))
    (flds : List (String × PyVal)) : Bool :=
  flds.all (fun f => (fieldTagsOf tags f.1).isOk)

/-- Child classifier: label children. -/
def isLabelC : Child → Bool
  | .label _ _ => true
  | .widget _ => false

/-- Child classifier: widget children. -/
def isWidgetC : Child → Bool
  | .label _ _ => false
  | .widget _ => true

/-- Concrete view state for the integer round-trip scenario: owner with
one integer field x set to 5, no tags. -/
def c2view : ClassView :=
  { Name := "sim", Tags := [], Class := [("x", PyVal.int 5)],
    Frame := [], Views := [] }

/-- The spin widget the round-trip scenario expects after Config. -/
def c2widget : Widget :=
  { name := "sim:x", kind := .spinBox, checked := false,
    value := .int 5, text := "", inactive := false, conn := .setIntValCB }

/-- Concrete view state whose second field has a non-string tag entry, so
FieldTags raises AttributeError in the middle of the Config loop. -/
def c8bad : ClassView :=
  { Name := "sim", Tags := [("y", PyVal.int 3)],
    Class := [("x", PyVal.int 5), ("y", PyVal.str "hi")],
    Frame := [], Views := [] }

theorem dictFind?_insert_self {α : Type} (d : List (String × α)) (k : String)
    (v : α) : dictFind? (dictInsert d k v) k = some v := by
  induction d with
  | nil => simp [dictInsert, dictFind?]
  | cons p rest ih =>
    by_cases h : p.1 = k
    · simp [dictInsert, h, dictFind?]
    · simp [dictInsert, h, dictFind?, ih]

theorem dictFind?_insert_ne {α : Type} (d : List (String × α)) (k k' : String)
    (v : α) (h : k' ≠ k) :
    dictFind? (dictInsert d k v) k' = dictFind? d k' := by
  induction d with
  | nil => simp [dictInsert, dictFind?, Ne.symm h]
  | cons p rest ih =>
    by_cases hp : p.1 = k
    · have hk' : ¬(k = k') := Ne.symm h
      have hp' : ¬(p.1 = k') := by rw [hp]; exact hk'
      simp [dictInsert, hp, dictFind?, hk', hp']
    · simp [dictInsert, hp, dictFind?, ih]

theorem dictFind?_insert_isSome {α : Type} (d : List (String × α))
    (k k' : String) (v : α) (h : dictFind? d k' ≠ none) :
    dictFind? (dictInsert d k v) k' ≠ none := by
  by_cases hk : k' = k
  · subst hk
    simp [dictFind?_insert_self]
  · rwa [dictFind?_insert_ne d k k' v hk]

theorem dictInsert_map_fst {α : Type} (d : List (String × α)) (k : String)
    (v : α) (h : dictFind? d k ≠ none) :
    (dictInsert d k v).map Prod.fst = d.map Prod.fst := by
  induction d with
  | nil => simp [dictFind?] at h
  | cons p rest ih =>
    by_cases hp : p.1 = k
    · simp [dictInsert, hp]
    · simp [dictFind?, hp] at h
      simp [dictInsert, hp, ih h]

theorem dictFind?_mem {α : Type} (d : List (String × α)) (k : String)
    (v : α) (h : dictFind? d k = some v) : (k, v) ∈ d := by
  induction d with
  | nil => simp [dictFind?] at h
  | cons p rest ih =>
    obtain ⟨k1, v1⟩ := p
    by_cases hp : k1 = k
    · simp [dictFind?, hp] at h
      subst hp
      subst h
      exact List.mem_cons_self _ _
    · simp [dictFind?, hp] at h
      exact List.mem_cons_of_mem _ (ih h)

theorem mem_dictInsert {α : Type} (d : List (String × α)) (k : String)
    (v : α) (p : String × α) (h : p ∈ dictInsert d k v) :
    p = (k, v) ∨ p ∈ d := by
  induction d with
  | nil => simpa [dictInsert] using h
  | cons q rest ih =>
    by_cases hq : q.1 = k
    · simp [dictInsert, hq] at h
      rcases h with h | h
      · exact Or.inl h
      · exact Or.inr (List.mem_cons_of_mem _ h)
    · simp [dictInsert, hq] at h
      rcases h with h | h
      · exact Or.inr (by simp [h])
      · rcases ih h with h' | h'
        · exact Or.inl h'
        · exact Or.inr (List.mem_cons_of_mem _ h')

theorem dictInsert_fresh {α : Type} (d : List (String × α)) (k : String)
    (v : α) (h : dictFind? d k = none) : dictInsert d k v = d ++ [(k, v)] := by
  induction d with
  | nil => simp [dictInsert]
  | cons p rest ih =>
    by_cases hp : p.1 = k
    · simp [dictFind?, hp] at h
    · simp [dictFind?, hp] at h
      simp [dictInsert, hp, ih h]

theorem dictFind?_append {α : Type} (d e : List (String × α)) (k : String) :
    dictFind? (d ++ e) k =
      (dictFind? d k).or (dictFind? e k) := by
  induction d with
  | nil => simp [dictFind?]
  | cons p rest ih =>
    by_cases hp : p.1 = k
    · simp [dictFind?, hp]
    · simp [dictFind?, hp, ih]

theorem splitChar_ne_nil (c : Char) (l : List Char) : splitChar c l ≠ [] := by
  cases l with
  | nil => simp [splitChar]
  | cons x xs =>
    cases hsp : splitChar c xs with
    | nil => simp [splitChar, hsp]
    | cons y ys => by_cases h : x = c <;> simp [splitChar, hsp, h]

theorem splitChar_not_mem (c : Char) (l : List Char) (h : c ∉ l) :
    splitChar c l = [l] := by
  induction l with
  | nil => simp [splitChar]
  | cons x xs ih =>
    have hx : ¬(x = c) := by
      intro e
      exact h (by simp [e])
    have hxs : c ∉ xs := fun m => h (List.mem_cons_of_mem _ m)
    simp [splitChar, ih hxs, hx]

theorem splitChar_append (c : Char) (a b : List Char) (h : c ∉ a) :
    splitChar c (a ++ c :: b) = a :: splitChar c b := by
  induction a with
  | nil =>
    cases hsp : splitChar c b with
    | nil => exact absurd hsp (splitChar_ne_nil c b)
    | cons y ys => simp [splitChar, hsp]
  | cons x xs ih =>
    have hx : ¬(x = c) := by
      intro e
      exact h (by simp [e])
    have hxs : c ∉ xs := fun m => h (List.mem_cons_of_mem _ m)
    simp [splitChar, ih hxs, hx]

theorem string_mk_toList (s : String) : String.mk s.toList = s := rfl

theorem pysplit_composite (a b : String) (ha : ':' ∉ a.toList)
    (hb : ':' ∉ b.toList) : pysplit ':' (compositeName a b) = [a, b] := by
  have hdata : (compositeName a b).toList = a.toList ++ ':' :: b.toList := by
    show (a ++ ":" ++ b).data = a.data ++ ':' :: b.data
    simp [String.data_append]
  unfold pysplit
  rw [hdata, splitChar_append _ _ _ ha, splitChar_not_mem _ _ hb]
  simp [string_mk_toList]

theorem parseTagsAux_snd (ts : List String) :
    ∀ d e, (parseTagsAux (d, e) ts).2 =
      e + ts.countP (fun t => (pysplit ':' t).length != 2) := by
  induction ts with
  | nil => intro d e; simp [parseTagsAux]
  | cons t ts ih =>
    intro d e
    rcases hsp : pysplit ':' t with _ | ⟨n, _ | ⟨v, _ | ⟨w, rest⟩⟩⟩ <;>
      simp [parseTagsAux, hsp, List.countP_cons, ih] <;> omega

theorem parseTagsAux_keys (ts : List String) :
    ∀ d e n, (dictFind? d n ≠ none ∨ ∃ t ∈ ts, ∃ v, pysplit ':' t = [n, v]) →
      dictFind? (parseTagsAux (d, e) ts).1 n ≠ none := by
  induction ts with
  | nil =>
    intro d e n h
    rcases h with h | ⟨t, ht, _⟩
    · simpa [parseTagsAux] using h
    · simp at ht
  | cons t ts ih =>
    intro d e n h
    rcases hsp : pysplit ':' t with _ | ⟨n1, _ | ⟨v1, _ | ⟨w1, rest⟩⟩⟩
    · simp only [parseTagsAux, hsp]
      apply ih
      rcases h with h | ⟨t', ht', v', hv'⟩
      · exact Or.inl h
      · rcases List.mem_cons.mp ht' with rfl | ht'
        · rw [hsp] at hv'
          simp at hv'
        · exact Or.inr ⟨t', ht', v', hv'⟩
    · simp only [parseTagsAux, hsp]
      apply ih
      rcases h with h | ⟨t', ht', v', hv'⟩
      · exact Or.inl h
      · rcases List.mem_cons.mp ht' with rfl | ht'
        · rw [hsp] at hv'
          simp at hv'
        · exact Or.inr ⟨t', ht', v', hv'⟩
    · simp only [parseTagsAux, hsp]
      apply ih
      rcases h with h | ⟨t', ht', v', hv'⟩
      · exact Or.inl (dictFind?_insert_isSome _ _ _ _ h)
      · rcases List.mem_cons.mp ht' with rfl | ht'
        · rw [hsp] at hv'
          have hn : n1 = n := by
            have := congrArg (fun l => List.headD l "") hv'
            simpa using this
          subst hn
          refine Or.inl ?_
          rw [dictFind?_insert_self]
          simp
        · exact Or.inr ⟨t', ht', v', hv'⟩
    · simp only [parseTagsAux, hsp]
      apply ih
      rcases h with h | ⟨t', ht', v', hv'⟩
      · exact Or.inl h
      · rcases List.mem_cons.mp ht' with rfl | ht'
        · rw [hsp] at hv'
          simp at hv'
        · exact Or.inr ⟨t', ht', v', hv'⟩

/-- C1: in ClassView.Config of pygiv.py every processed field value is
classified into exactly one widget kind by the first-match-wins precedence
boolean to toggle, engine object to action opening a nested structured
editor, DataFrame to action opening a table viewer, numeric (integer or
floating-point) to numeric spin, anything else to free text; the
constructed widget carries that kind and is wired to the matching
callback.  The function specWidgetKind restates the precedence in the
words of the spec, so the equality is the refinement statement. -/
theorem c1_classification (viewName : String) (ftags : List (String × String))
    (nm : String) (val : PyVal) :
    (fieldWidget viewName ftags nm val).kind = specWidgetKind val ∧
    (fieldWidget viewName ftags nm val).conn = specConn (specWidgetKind val) := by
  cases val <;> simp [fieldWidget, specWidgetKind, specConn, isinstanceBool,
    isinstanceGoClass, isinstanceDataFrame, isinstanceInt, isinstanceFloat]

/-- C2: integer round-trip.  For an owner whose integer field x is 5,
Config creates a numeric spin widget displaying 5 under the registry key
x; committing 7 through SetIntValCB (which reads the displayed value of
the sender widget) and reading the owner field x afterwards yields 7. -/
theorem c2_int_roundtrip :
    dictFind? ((ClassView.Config c2view).1.Views) "x" = some c2widget ∧
    c2widget.kind = WidgetKind.spinBox ∧
    c2widget.value = PyVal.int 5 ∧
    (SetIntValCB [("sim", (ClassView.Config c2view).1)]
        { c2widget with value := PyVal.int 7 } 0).map
      (fun cvs => (dictFind? cvs "sim").map (fun cv => dictFind? cv.Class "x"))
      = Except.ok (some (some (PyVal.int 7))) := by
  exact ⟨rfl, rfl, rfl, rfl⟩

/-- C3: FieldTags parses a tag string as space-separated tokens of the
form name colon double-quoted value.  The token inactive:"+" parses to
the single entry mapping inactive to +, the token badtoken parses to the
empty dictionary with exactly one diagnostic, the diagnostic count is
exactly the number of tokens that do not split on the colon into exactly
two parts, and every well-formed token lands in the dictionary, so a
malformed token never aborts the parsing of the remaining tokens. -/
theorem c3_tag_parsing :
    parseTags "inactive:\"+\"" = ([("inactive", "+")], 0) ∧
    parseTags "badtoken" = ([], 1) ∧
    (∀ s : String, (parseTags s).2 =
      (pysplit ' ' s).countP (fun t => (pysplit ':' t).length != 2)) ∧
    (∀ s : String, ∀ t ∈ pysplit ' ' s, ∀ n v : String,
      pysplit ':' t = [n, v] → dictFind? (parseTags s).1 n ≠ none) := by
  refine ⟨by decide, by decide, ?_, ?_⟩
  · intro s
    simpa using parseTagsAux_snd (pysplit ' ' s) [] 0
  · intro s t ht n v hnv
    exact parseTagsAux_keys (pysplit ' ' s) [] 0 n (Or.inr ⟨t, ht, v, hnv⟩)

/-- Witness for C3: the well-formed token hypothesis discharged on the
concrete input inactive:"+". -/
theorem c3_tag_parsing_witness :
    dictFind? (parseTags "inactive:\"+\"").1 "inactive" ≠ none :=
  c3_tag_parsing.2.2.2 "inactive:\"+\"" "inactive:\"+\"" (by decide)
    "inactive" "\"+\"" (by decide)

/-- C10: in the earlier revision pygi.py a boolean field value satisfies
the integer isinstance test, so it is given a numeric spin widget wired
to the integer change callback; that revision never produces a toggle
widget, hence the two revisions classify boolean fields differently. -/
theorem c10_old_revision_bool (b : Bool) (viewName nm : String)
    (ftags : List (String × String)) :
    isinstanceInt (PyVal.bool b) = true ∧
    (fieldWidgetOld viewName nm (PyVal.bool b)).kind = WidgetKind.spinBox ∧
    (fieldWidgetOld viewName nm (PyVal.bool b)).conn = Callback.setIntValCB ∧
    (∀ val : PyVal, (fieldWidgetOld viewName nm val).kind ≠ WidgetKind.checkBox) ∧
    (fieldWidget viewName ftags nm (PyVal.bool b)).kind = WidgetKind.checkBox ∧
    (fieldWidgetOld viewName nm (PyVal.bool b)).kind ≠
      (fieldWidget viewName ftags nm (PyVal.bool b)).kind := by
  refine ⟨rfl, rfl, rfl, ?_, rfl,
    by simp [fieldWidget, fieldWidgetOld, isinstanceBool, isinstanceInt]⟩
  intro val
  cases val <;> simp [fieldWidgetOld, isinstanceInt]

/-- Witness for C10 at a concrete input. -/
theorem c10_old_revision_bool_witness :
    (fieldWidgetOld "sim" "x" (PyVal.bool true)).kind = WidgetKind.spinBox :=
  (c10_old_revision_bool true "sim" "x" []).2.1

theorem ftagsD_eq (tags : List (String × PyVal)) (nm : String)
    (ftags : List (String × String)) (d : Nat)
    (h : fieldTagsOf tags nm = .ok (ftags, d)) : ftagsD tags nm = ftags := by
  simp [ftagsD, h]

theorem fieldWidget_name (viewName : String) (ftags : List (String × String))
    (nm : String) (val : PyVal) :
    (fieldWidget viewName ftags nm val).name = compositeName viewName nm := by
  cases val <;> simp [fieldWidget, isinstanceBool, isinstanceGoClass,
    isinstanceDataFrame, isinstanceInt, isinstanceFloat]

theorem compositeName_inj_right (a b b' : String)
    (h : compositeName a b = compositeName a b') : b = b' := by
  have hd : (a ++ ":" ++ b).data = (a ++ ":" ++ b').data :=
    congrArg String.data h
  simp only [String.data_append, List.append_assoc] at hd
  exact String.ext (List.append_cancel_left (List.append_cancel_left hd))

theorem dictFind?_eq_none_iff {α : Type} (d : List (String × α)) (k : String) :
    dictFind? d k = none ↔ k ∉ d.map Prod.fst := by
  induction d with
  | nil => simp [dictFind?]
  | cons p rest ih =>
    by_cases hp : p.1 = k
    · simp [dictFind?, hp]
    · simp [dictFind?, hp, ih, Ne.symm hp]

theorem configLoop_views_hidden (viewName : String)
    (tags : List (String × PyVal)) (nm : String)
    (hnm : isHidden tags nm = true) :
    ∀ (flds : List (String × PyVal)) frame views trace,
      dictFind? views nm = none →
      dictFind? (configLoop viewName tags frame views trace flds).views nm =
        none := by
  intro flds
  induction flds with
  | nil => intro frame views trace hv; simpa [configLoop] using hv
  | cons f rest ih =>
    intro frame views trace hv
    obtain ⟨nm', val'⟩ := f
    rcases hft : fieldTagsOf tags nm' with e | ⟨ftags, d⟩
    · simpa [configLoop, hft] using hv
    · by_cases hh : HasTagValue ftags "view" "-"
      · simp only [configLoop, hft, hh, if_true]
        exact ih frame views trace hv
      · have hne : nm' ≠ nm := by
          intro e
          subst e
          rw [isHidden, ftagsD_eq tags nm' ftags d hft] at hnm
          exact hh hnm
        simp only [configLoop, hft, hh, if_false]
        apply ih
        rw [dictFind?_insert_ne _ _ _ _ (Ne.symm hne)]
        exact hv

theorem configLoop_frame_hidden (viewName : String)
    (tags : List (String × PyVal)) (nm : String)
    (hnm : isHidden tags nm = true) :
    ∀ (flds : List (String × PyVal)) frame views trace,
      Child.label ("lbl_" ++ nm) nm ∉ frame →
      (∀ w : Widget, Child.widget w ∈ frame →
        w.name ≠ compositeName viewName nm) →
      Child.label ("lbl_" ++ nm) nm ∉
          (configLoop viewName tags frame views trace flds).frame ∧
        (∀ w : Widget,
          Child.widget w ∈ (configLoop viewName tags frame views trace flds).frame →
          w.name ≠ compositeName viewName nm) := by
  intro flds
  induction flds with
  | nil => intro frame views trace hl hw; exact ⟨hl, hw⟩
  | cons f rest ih =>
    intro frame views trace hl hw
    obtain ⟨nm', val'⟩ := f
    rcases hft : fieldTagsOf tags nm' with e | ⟨ftags, d⟩
    · simp only [configLoop, hft]
      exact ⟨hl, hw⟩
    · by_cases hh : HasTagValue ftags "view" "-"
      · simp only [configLoop, hft, hh, if_true]
        exact ih frame views trace hl hw
      · have hne : nm' ≠ nm := by
          intro e
          subst e
          rw [isHidden, ftagsD_eq tags nm' ftags d hft] at hnm
          exact hh hnm
        simp only [configLoop, hft, hh, if_false]
        apply ih
        · intro hmem
          rcases List.mem_append.mp hmem with hmem | hmem
          · exact hl hmem
          · rcases List.mem_cons.mp hmem with heq | hmem
            · simp only [Child.label.injEq] at heq
              exact hne heq.2.symm
            · rcases List.mem_cons.mp hmem with heq | hmem
              · simp at heq
              · simp at hmem
        · intro w hmem hname
          rcases List.mem_append.mp hmem with hmem | hmem
          · exact hw w hmem hname
          · rcases List.mem_cons.mp hmem with heq | hmem
            · simp at heq
            · rcases List.mem_cons.mp hmem with heq | hmem
              · have hw' : w = fieldWidget viewName ftags nm' val' := by
                  simpa [Child.widget.injEq] using heq
                subst hw'
                rw [fieldWidget_name] at hname
                exact hne (compositeName_inj_right _ _ _ hname)
              · simp at hmem

theorem updateViews_find_none (nm : String) :
    ∀ (flds : List (String × PyVal)) views,
      dictFind? views nm = none →
      dictFind? (updateViews flds views) nm = none := by
  intro flds
  induction flds with
  | nil => intro views hv; simpa [updateViews] using hv
  | cons f rest ih =>
    intro views hv
    obtain ⟨nm', val'⟩ := f
    rcases hfv : dictFind? views nm' with _ | vw
    · simp only [updateViews, hfv]
      exact ih views hv
    · have hne : nm' ≠ nm := by
        intro e
        subst e
        rw [hv] at hfv
        cases hfv
      simp only [updateViews, hfv]
      apply ih
      rw [dictFind?_insert_ne _ _ _ _ (Ne.symm hne)]
      exact hv

/-- C4: a field whose directives include a view tag with value dash gets
no label child, no widget child and no registry entry from Config, and
Update touches nothing for it: no registry entry exists for it after
Update and the owner is not written at all. -/
theorem c4_hidden_field (cv : ClassView) (nm : String)
    (h : isHidden cv.Tags nm = true) :
    dictFind? ((ClassView.Config cv).1.Views) nm = none ∧
    Child.label ("lbl_" ++ nm) nm ∉ (ClassView.Config cv).1.Frame ∧
    (∀ w : Widget, Child.widget w ∈ (ClassView.Config cv).1.Frame →
      w.name ≠ compositeName cv.Name nm) ∧
    dictFind? (((ClassView.Config cv).1.Update).Views) nm = none ∧
    ((ClassView.Config cv).1.Update).Class = (ClassView.Config cv).1.Class := by
  have h1 : dictFind? ((ClassView.Config cv).1.Views) nm = none := by
    simp only [ClassView.Config]
    exact configLoop_views_hidden cv.Name cv.Tags nm h cv.Class _ _ _ rfl
  have h2 := configLoop_frame_hidden cv.Name cv.Tags nm h cv.Class
    [] [] [Ev.updateStart, Ev.setFullReRender, Ev.deleteChildren]
    (by simp) (by simp)
  refine ⟨h1, h2.1, h2.2, ?_, rfl⟩
  exact updateViews_find_none nm _ _ h1

/-- Witness for C4: the hidden-field hypothesis discharged on a concrete
view whose field x carries the view dash tag. -/
theorem c4_hidden_field_witness :
    dictFind?
      ((ClassView.Config
        { Name := "sim", Tags := [("x", PyVal.str "view:\"-\"")],
          Class := [("x", PyVal.int 5), ("y", PyVal.str "hi")],
          Frame := [], Views := [] }).1.Views) "x" = none :=
  (c4_hidden_field _ "x" (by decide)).1

theorem configLoop_trace (viewName : String) (tags : List (String × PyVal)) :
    ∀ (flds : List (String × PyVal)) frame views trace, ∃ evs,
      (configLoop viewName tags frame views trace flds).trace = trace ++ evs ∧
      ∀ e ∈ evs, ∃ s, e = Ev.addChild s := by
  intro flds
  induction flds with
  | nil =>
    intro frame views trace
    exact ⟨[], by simp [configLoop], by simp⟩
  | cons f rest ih =>
    intro frame views trace
    obtain ⟨nm', val'⟩ := f
    rcases hft : fieldTagsOf tags nm' with e | ⟨ftags, d⟩
    · exact ⟨[], by simp [configLoop, hft], by simp⟩
    · by_cases hh : HasTagValue ftags "view" "-"
      · simp only [configLoop, hft, hh, if_true]
        exact ih frame views trace
    
      · simp only [configLoop, hft, hh, Bool.false_eq_true, if_false]
        obtain ⟨evs, hevs, hall⟩ := ih
          (frame ++ [Child.label ("lbl_" ++ nm') nm',
            Child.widget (fieldWidget viewName ftags nm' val')])
          (dictInsert views nm' (fieldWidget viewName ftags nm' val'))
          (trace ++ [Ev.addChild ("lbl_" ++ nm'),
            Ev.addChild (fieldWidget viewName ftags nm' val').name])
        refine ⟨[Ev.addChild ("lbl_" ++ nm'),
          Ev.addChild (fieldWidget viewName ftags nm' val').name] ++ evs, ?_, ?_⟩
        · rw [hevs, List.append_assoc]
        · intro e he
          rcases List.mem_append.mp he with he | he
          · rcases List.mem_cons.mp he with he | he
            · exact ⟨_, he⟩
            · rcases List.mem_cons.mp he with he | he
              · exact ⟨_, he⟩
              · simp at he
          · exact hall e he

theorem count_addChild_zero (evs : List Ev)
    (h : ∀ e ∈ evs, ∃ s, e = Ev.addChild s) :
    evs.count Ev.updateStart = 0 ∧ evs.count Ev.updateEnd = 0 := by
  constructor <;> rw [List.count_eq_zero] <;> intro hm <;>
    obtain ⟨s, hs⟩ := h _ hm <;> cases hs

/-- C8 amended: when the Config field loop completes without a Python
exception, the trace opens with exactly one UpdateStart (so every widget
deletion and creation happens after it), closes with exactly one
UpdateEnd, and no other UpdateStart or UpdateEnd occurs, whatever the
number of fields.  The unconditional form of the claim is false: an
exception in the middle of the loop propagates and UpdateEnd is never
called, see the counterexample. -/
theorem c8_batched_update (cv : ClassView)
    (h : (ClassView.Config cv).2.2 = none) :
    (ClassView.Config cv).2.1.head? = some Ev.updateStart ∧
    (ClassView.Config cv).2.1.getLast? = some Ev.updateEnd ∧
    (ClassView.Config cv).2.1.count Ev.updateStart = 1 ∧
    (ClassView.Config cv).2.1.count Ev.updateEnd = 1 := by
  obtain ⟨evs, hevs, hall⟩ := configLoop_trace cv.Name cv.Tags cv.Class
    [] [] [Ev.updateStart, Ev.setFullReRender, Ev.deleteChildren]
  have herr : (configLoop cv.Name cv.Tags [] []
      [Ev.updateStart, Ev.setFullReRender, Ev.deleteChildren] cv.Class).err
      = none := by
    simpa [ClassView.Config] using h
  have htr : (ClassView.Config cv).2.1 =
      ([Ev.updateStart, Ev.setFullReRender, Ev.deleteChildren] ++ evs) ++
        [Ev.updateEnd] := by
    simp only [ClassView.Config, herr, hevs]
  obtain ⟨hs0, he0⟩ := count_addChild_zero evs hall
  refine ⟨?_, ?_, ?_, ?_⟩
  · rw [htr]; rfl
  · rw [htr, List.getLast?_concat]
  · rw [htr]
    simp [List.count_append, List.count_cons, hs0]
  · rw [htr]
    simp [List.count_append, List.count_cons, he0]

/-- Witness for C8 on the concrete error-free view of the round-trip
scenario. -/
theorem c8_batched_update_witness :
    (ClassView.Config c2view).2.1.count Ev.updateEnd = 1 :=
  (c8_batched_update c2view rfl).2.2.2

/-- Counterexample to C8 as stated: on c8bad the first field is processed
(a mutation occurs inside the loop), then FieldTags raises on the second
field, the exception propagates, and UpdateEnd is called zero times, not
exactly once. -/
theorem c8_counterexample :
    (ClassView.Config c8bad).2.2 =
      some "AttributeError: object has no attribute split" ∧
    Ev.addChild "lbl_x" ∈ (ClassView.Config c8bad).2.1 ∧
    (ClassView.Config c8bad).2.1.count Ev.updateEnd = 0 := by
  refine ⟨rfl, ?_, ?_⟩ <;> decide

theorem configLoop_ok (viewName : String) (tags : List (String × PyVal)) :
    ∀ (flds : List (String × PyVal)) frame views trace,
      tagsOk tags flds = true →
      configLoop viewName tags frame views trace flds =
        ⟨frame ++ (visibleFields tags flds).flatMap (fun f =>
            [Child.label ("lbl_" ++ f.1) f.1,
             Child.widget (fieldWidget viewName (ftagsD tags f.1) f.1 f.2)]),
          (visibleFields tags flds).foldl
            (fun vs f =>
              dictInsert vs f.1 (fieldWidget viewName (ftagsD tags f.1) f.1 f.2))
            views,
          trace ++ (visibleFields tags flds).flatMap (fun f =>
            [Ev.addChild ("lbl_" ++ f.1),
             Ev.addChild (compositeName viewName f.1)]),
          none⟩ := by
  intro flds
  induction flds with
  | nil =>
    intro frame views trace _
    simp [configLoop, visibleFields]
  | cons f rest ih =>
    intro frame views trace hok
    obtain ⟨nm', val'⟩ := f
    rw [tagsOk, List.all_cons, Bool.and_eq_true] at hok
    obtain ⟨hok1, hokr⟩ := hok
    rcases hft : fieldTagsOf tags nm' with e | ⟨ftags, d⟩
    · rw [hft] at hok1
      simp [Except.isOk, Except.toBool] at hok1
    · have hftD : ftagsD tags nm' = ftags := ftagsD_eq tags nm' ftags d hft
      by_cases hh : HasTagValue ftags "view" "-"
      · have hhid : isHidden tags nm' = true := by
          rw [isHidden, hftD]
          exact hh
        have hvis : visibleFields tags ((nm', val') :: rest) =
            visibleFields tags rest := by
          simp [visibleFields, hhid]
        simp only [configLoop, hft, hh, if_true, hvis]
        exact ih frame views trace hokr
      · have hhid : isHidden tags nm' = false := by
          rw [isHidden, hftD]
          exact Bool.eq_false_iff.mpr hh
        have hvis : visibleFields tags ((nm', val') :: rest) =
            (nm', val') :: visibleFields tags rest := by
          simp [visibleFields, hhid]
        simp only [configLoop, hft, hh, Bool.false_eq_true, if_false]
        rw [ih _ _ _ hokr, hvis]
        simp only [List.flatMap_cons, List.foldl_cons, hftD, fieldWidget_name,
          ConfigOut.mk.injEq, List.append_assoc]

theorem foldl_dictInsert_fresh {α : Type} (g : String × PyVal → α) :
    ∀ (l : List (String × PyVal)) (views : List (String × α)),
      (l.map Prod.fst).Nodup →
      (∀ f ∈ l, dictFind? views f.1 = none) →
      l.foldl (fun vs f => dictInsert vs f.1 (g f)) views =
        views ++ l.map (fun f => (f.1, g f)) := by
  intro l
  induction l with
  | nil => intro views _ _; simp
  | cons f rest ih =>
    intro views hnd hfresh
    have hf : dictFind? views f.1 = none := hfresh f (List.mem_cons_self _ _)
    have hnd2 : (f.1 :: rest.map Prod.fst).Nodup := by simpa using hnd
    have hnd' : (rest.map Prod.fst).Nodup := (List.nodup_cons.mp hnd2).2
    have hne : ∀ f' ∈ rest, f'.1 ≠ f.1 := by
      intro f' hf' he
      exact (List.nodup_cons.mp hnd2).1
        (he ▸ List.mem_map_of_mem Prod.fst hf')
    simp only [List.foldl_cons]
    rw [dictInsert_fresh _ _ _ hf, ih _ hnd' ?fresh, List.append_assoc]
    · rfl
    case fresh =>
      intro f' hf'
      rw [dictFind?_append]
      have h1 : dictFind? views f'.1 = none :=
        hfresh f' (List.mem_cons_of_mem _ hf')
      have h2 : dictFind? [(f.1, g f)] f'.1 = none := by
        simp [dictFind?, (hne f' hf').symm]
      rw [h1, h2]
      rfl

theorem countP_flatMap_pair {α β : Type} (a b : α → β) (p : β → Bool) :
    ∀ l : List α,
      ((l.flatMap (fun f => [a f, b f])).countP p) =
        l.countP (fun f => p (a f)) + l.countP (fun f => p (b f)) := by
  intro l
  induction l with
  | nil => simp
  | cons x xs ih =>
    simp only [List.flatMap_cons, List.countP_append, List.countP_cons, ih]
    simp only [List.countP, List.countP.go, List.nil_append]
    by_cases hpa : p (a x) <;> by_cases hpb : p (b x) <;>
      simp [hpa, hpb] <;> omega

/-- C5: with well-formed tags and distinct field names, Config produces
exactly one label child and one widget child per visible field, the
registry self.Views has exactly one entry per visible field, and every
registry key names a field present on the owner and not hidden by a view
dash tag. -/
theorem c5_registry_invariant (cv : ClassView)
    (hok : tagsOk cv.Tags cv.Class = true)
    (hnd : (cv.Class.map Prod.fst).Nodup) :
    (ClassView.Config cv).1.Frame.countP isLabelC =
        (visibleFields cv.Tags cv.Class).length ∧
    (ClassView.Config cv).1.Frame.countP isWidgetC =
        (visibleFields cv.Tags cv.Class).length ∧
    (ClassView.Config cv).1.Views.length =
        (visibleFields cv.Tags cv.Class).length ∧
    ∀ k ∈ (ClassView.Config cv).1.Views.map Prod.fst,
      dictFind? cv.Class k ≠ none ∧ isHidden cv.Tags k = false := by
  have hloop := configLoop_ok cv.Name cv.Tags cv.Class [] []
    [Ev.updateStart, Ev.setFullReRender, Ev.deleteChildren] hok
  have hndvis : ((visibleFields cv.Tags cv.Class).map Prod.fst).Nodup :=
    List.Nodup.sublist (List.Sublist.map Prod.fst (List.filter_sublist _)) hnd
  have hviews : (ClassView.Config cv).1.Views =
      (visibleFields cv.Tags cv.Class).map
        (fun f => (f.1, fieldWidget cv.Name (ftagsD cv.Tags f.1) f.1 f.2)) := by
    simp only [ClassView.Config, hloop]
    rw [foldl_dictInsert_fresh _ _ [] hndvis (fun f _ => rfl)]
    simp
  have hframe : (ClassView.Config cv).1.Frame =
      (visibleFields cv.Tags cv.Class).flatMap (fun f =>
        [Child.label ("lbl_" ++ f.1) f.1,
         Child.widget (fieldWidget cv.Name (ftagsD cv.Tags f.1) f.1 f.2)]) := by
    simp only [ClassView.Config, hloop]
    simp
  refine ⟨?_, ?_, ?_, ?_⟩
  · rw [hframe, countP_flatMap_pair]
    simp [isLabelC]
  · rw [hframe, countP_flatMap_pair]
    simp [isWidgetC]
  · rw [hviews]
    simp
  · intro k hk
    rw [hviews, List.map_map] at hk
    obtain ⟨f, hf, hkf⟩ := List.mem_map.mp hk
    have hkf' : f.1 = k := hkf
    obtain ⟨hfmem, hfvis⟩ := List.mem_filter.mp hf
    subst hkf'
    constructor
    · intro hno
      rw [dictFind?_eq_none_iff] at hno
      exact hno (List.mem_map_of_mem Prod.fst hfmem)
    · simpa using hfvis

/-- Witness for C5 on a concrete owner with one visible and one hidden
field. -/
theorem c5_registry_invariant_witness :
    (ClassView.Config
      { Name := "sim", Tags := [("x", PyVal.str "view:\"-\"")],
        Class := [("x", PyVal.int 5), ("y", PyVal.str "hi")],
        Frame := [], Views := [] }).1.Views.length =
      (visibleFields [("x", PyVal.str "view:\"-\"")]
        [("x", PyVal.int 5), ("y", PyVal.str "hi")]).length :=
  (c5_registry_invariant _ (by decide) (by decide)).2.2.1

theorem configLoop_views_names (viewName : String)
    (tags : List (String × PyVal)) :
    ∀ (flds : List (String × PyVal)) frame views trace,
      (∀ k w, dictFind? views k = some w → w.name = compositeName viewName k) →
      ∀ k w,
        dictFind? (configLoop viewName tags frame views trace flds).views k =
          some w →
        w.name = compositeName viewName k := by
  intro flds
  induction flds with
  | nil =>
    intro frame views trace hinv k w hw
    exact hinv k w hw
  | cons f rest ih =>
    intro frame views trace hinv k w hw
    obtain ⟨nm', val'⟩ := f
    rcases hft : fieldTagsOf tags nm' with e | ⟨ftags, d⟩
    · rw [configLoop, hft] at hw
      exact hinv k w hw
    · by_cases hh : HasTagValue ftags "view" "-"
      · simp only [configLoop, hft, hh, if_true] at hw
        exact ih frame views trace hinv k w hw
      · simp only [configLoop, hft, hh, Bool.false_eq_true, if_false] at hw
        refine ih _ _ _ ?_ k w hw
        intro k' w' hw'
        by_cases hk : k' = nm'
        · subst hk
          rw [dictFind?_insert_self] at hw'
          cases hw'
          exact fieldWidget_name viewName ftags k' val'
        · rw [dictFind?_insert_ne _ _ _ _ hk] at hw'
          exact hinv k' w' hw'

/-- C7: every widget Config records in the registry is named by
concatenating the binder name, a colon, and the field name; and for any
binder name and field name containing no colon, the split performed by
the change callbacks recovers exactly that pair, nms[0] being the binder
name and nms[1] the field name. -/
theorem c7_composite_name (cv : ClassView) (nm : String) (w : Widget)
    (hw : dictFind? ((ClassView.Config cv).1.Views) nm = some w)
    (a b : String) (ha : ':' ∉ a.toList) (hb : ':' ∉ b.toList) :
    w.name = compositeName cv.Name nm ∧
    pysplit ':' (compositeName a b) = [a, b] ∧
    pyIndex (pysplit ':' (compositeName a b)) 0 = Except.ok a ∧
    pyIndex (pysplit ':' (compositeName a b)) 1 = Except.ok b := by
  have hsplit := pysplit_composite a b ha hb
  refine ⟨?_, hsplit, ?_, ?_⟩
  · have hcfg : (ClassView.Config cv).1.Views =
        (configLoop cv.Name cv.Tags [] []
          [Ev.updateStart, Ev.setFullReRender, Ev.deleteChildren]
          cv.Class).views := rfl
    rw [hcfg] at hw
    exact configLoop_views_names cv.Name cv.Tags cv.Class _ _ _
      (by intro k w' hw'; cases hw') nm w hw
  · rw [hsplit]
    rfl
  · rw [hsplit]
    rfl

/-- Witness for C7 on the round-trip view and colon-free names. -/
theorem c7_composite_name_witness :
    c2widget.name = compositeName "sim" "x" ∧
    pysplit ':' (compositeName "sim" "x") = ["sim", "x"] ∧
    pyIndex (pysplit ':' (compositeName "sim" "x")) 0 = Except.ok "sim" ∧
    pyIndex (pysplit ':' (compositeName "sim" "x")) 1 = Except.ok "x" :=
  c7_composite_name c2view "x" c2widget rfl "sim" "x" (by decide) (by decide)

/-- C6: SetStrValCB writes the widget text onto the owner field exactly
when the signal is gi.TextFieldDone, and SetBoolValCB writes the checked
state exactly when the signal is gi.ButtonToggled; any other signal value
makes the handler return with the registry, hence every owner, untouched;
and neither Config nor Update ever writes an owner field. -/
theorem c6_commit_only :
    (∀ (cvs : List (String × ClassView)) (send : Widget) (sig : Int),
      sig ≠ gi.TextFieldDone → SetStrValCB cvs send sig = .ok cvs) ∧
    (∀ (cvs : List (String × ClassView)) (send : Widget) (sig : Int),
      sig ≠ gi.ButtonToggled → SetBoolValCB cvs send sig = .ok cvs) ∧
    (∀ (cvs : List (String × ClassView)) (send : Widget) (a b : String)
      (cv : ClassView),
      send.name = compositeName a b → ':' ∉ a.toList → ':' ∉ b.toList →
      dictFind? cvs a = some cv →
      SetStrValCB cvs send gi.TextFieldDone =
        .ok (dictInsert cvs a
          { cv with Class := setattr cv.Class b (.str send.text) }) ∧
      SetBoolValCB cvs send gi.ButtonToggled =
        .ok (dictInsert cvs a
          { cv with Class := setattr cv.Class b (.bool send.checked) })) ∧
    (∀ cv : ClassView, (ClassView.Config cv).1.Class = cv.Class) ∧
    (∀ cv : ClassView, (ClassView.Update cv).Class = cv.Class) := by
  refine ⟨?_, ?_, ?_, fun cv => rfl, fun cv => rfl⟩
  · intro cvs send sig h
    simp only [SetStrValCB, if_pos h]
  · intro cvs send sig h
    simp only [SetBoolValCB, if_pos h]
  · intro cvs send a b cv hname ha hb hfind
    constructor
    · have hcond : ¬(gi.TextFieldDone ≠ gi.TextFieldDone) := fun h => h rfl
      simp only [SetStrValCB, hname, pysplit_composite a b ha hb, if_neg hcond]
      simp [pyIndex, classviewsGet, hfind, Bind.bind, Except.bind, pure,
        Except.pure]
    · have hcond : ¬(gi.ButtonToggled ≠ gi.ButtonToggled) := fun h => h rfl
      simp only [SetBoolValCB, hname, pysplit_composite a b ha hb, if_neg hcond]
      simp [pyIndex, classviewsGet, hfind, Bind.bind, Except.bind, pure,
        Except.pure]

/-- Witness for C6: at a concrete registry and widget, a non-commit
signal leaves everything unchanged and the commit signal performs the
write. -/
theorem c6_commit_only_witness :
    SetStrValCB [("sim", c2view)] c2widget 0 = Except.ok [("sim", c2view)] ∧
    SetStrValCB [("sim", c2view)] c2widget gi.TextFieldDone =
      Except.ok (dictInsert [("sim", c2view)] "sim"
        { c2view with Class := setattr c2view.Class "x" (PyVal.str "") }) :=
  ⟨c6_commit_only.1 [("sim", c2view)] c2widget 0 (by decide),
   (c6_commit_only.2.2.1 [("sim", c2view)] c2widget "sim" "x" c2view rfl
      (by decide) (by decide) (by decide)).1⟩

theorem updateViews_map_fst :
    ∀ (flds : List (String × PyVal)) views,
      (updateViews flds views).map Prod.fst = views.map Prod.fst := by
  intro flds
  induction flds with
  | nil => intro views; rfl
  | cons f rest ih =>
    intro views
    obtain ⟨nm', val'⟩ := f
    rcases hfv : dictFind? views nm' with _ | vw
    · simp only [updateViews, hfv]
      exact ih views
    · simp only [updateViews, hfv]
      rw [ih, dictInsert_map_fst]
      rw [hfv]
      simp

theorem updateViews_find_notmem (nm : String) :
    ∀ (flds : List (String × PyVal)) views, nm ∉ flds.map Prod.fst →
      dictFind? (updateViews flds views) nm = dictFind? views nm := by
  intro flds
  induction flds with
  | nil => intro views _; rfl
  | cons f rest ih =>
    intro views hmem
    obtain ⟨nm', val'⟩ := f
    rw [List.map_cons, List.mem_cons] at hmem
    push_neg at hmem
    rcases hfv : dictFind? views nm' with _ | vw
    · simp only [updateViews, hfv]
      exact ih views hmem.2
    · simp only [updateViews, hfv]
      rw [ih _ hmem.2, dictFind?_insert_ne _ _ _ _ hmem.1]

theorem updateViews_find_some (nm : String) :
    ∀ (flds : List (String × PyVal)) views w val,
      (flds.map Prod.fst).Nodup →
      dictFind? views nm = some w →
      dictFind? flds nm = some val →
      dictFind? (updateViews flds views) nm = some (updateWidget val w) := by
  intro flds
  induction flds with
  | nil =>
    intro views w val _ _ hfl
    simp [dictFind?] at hfl
  | cons f rest ih =>
    intro views w val hnd hvw hfl
    obtain ⟨nm', val'⟩ := f
    rw [List.map_cons] at hnd
    have hnd' := (List.nodup_cons.mp hnd).2
    by_cases hk : nm' = nm
    · subst hk
      have hv : val' = val := by simpa [dictFind?] using hfl
      subst hv
      simp only [updateViews, hvw]
      have hnotin : nm' ∉ rest.map Prod.fst := (List.nodup_cons.mp hnd).1
      rw [updateViews_find_notmem _ _ _ hnotin, dictFind?_insert_self]
    · have hfl' : dictFind? rest nm = some val := by
        simpa [dictFind?, hk] using hfl
      rcases hfv : dictFind? views nm' with _ | vw
      · simp only [updateViews, hfv]
        exact ih views w val hnd' hvw hfl'
      · simp only [updateViews, hfv]
        apply ih _ _ _ hnd' _ hfl'
        rw [dictFind?_insert_ne _ _ _ _ (Ne.symm hk)]
        exact hvw

theorem updateWidget_goObj (l : Option String) (w : Widget) :
    updateWidget (PyVal.goObj l) w = w := rfl

theorem updateWidget_dataFrame (w : Widget) :
    updateWidget PyVal.dataFrame w = w := rfl

theorem updateWidget_fieldWidget (viewName : String)
    (ftags : List (String × String)) (nm : String) (val : PyVal) :
    updateWidget val (fieldWidget viewName ftags nm val) =
      fieldWidget viewName ftags nm val := by
  cases val <;> rfl

/-- C9: Update re-reads every owner field that has a registry entry and
pushes the converted value into that widget, with the same kind dispatch
as construction (refreshing a freshly built widget with the same value is
the identity); engine-object and DataFrame values are not refreshed; the
registry key set, the frame children and the owner are all untouched. -/
theorem c9_refresh (cv : ClassView)
    (hnd : (cv.Class.map Prod.fst).Nodup) :
    (ClassView.Update cv).Views.map Prod.fst = cv.Views.map Prod.fst ∧
    (ClassView.Update cv).Class = cv.Class ∧
    (ClassView.Update cv).Frame = cv.Frame ∧
    (∀ nm w val, dictFind? cv.Views nm = some w →
      dictFind? cv.Class nm = some val →
      dictFind? ((ClassView.Update cv).Views) nm =
        some (updateWidget val w)) ∧
    (∀ (l : Option String) (w : Widget),
      updateWidget (PyVal.goObj l) w = w) ∧
    (∀ w : Widget, updateWidget PyVal.dataFrame w = w) ∧
    (∀ (viewName : String) (ftags : List (String × String)) (nm : String)
      (val : PyVal),
      updateWidget val (fieldWidget viewName ftags nm val) =
        fieldWidget viewName ftags nm val) := by
  refine ⟨updateViews_map_fst cv.Class cv.Views, rfl, rfl, ?_,
    updateWidget_goObj, updateWidget_dataFrame, updateWidget_fieldWidget⟩
  intro nm w val hvw hfl
  exact updateViews_find_some nm cv.Class cv.Views w val hnd hvw hfl

/-- Witness for C9: a concrete refresh pushing the changed value 9 into
the registered spin widget. -/
theorem c9_refresh_witness :
    dictFind? ((ClassView.Update
      { Name := "sim", Tags := [], Class := [("x", PyVal.int 9)],
        Frame := [], Views := [("x", c2widget)] }).Views) "x" =
      some (updateWidget (PyVal.int 9) c2widget) :=
  (c9_refresh _ (by decide)).2.2.2.1 "x" c2widget (PyVal.int 9) rfl rfl
